import Mathlib

/-!
Shallow embedding of the `Funk66/spotify` repository: the credential store
(`spotify/config.py`, metaclass `MetaConfig` over class `Config`), the token
lifecycle manager and API facade (`spotify/__init__.py`, class `Client`), and
the callback listener's request handler (`HTTPRequestHandler.do_GET`).

Conventions of the embedding:
* Python's dynamically typed config values (all five fields are initialised to
  the empty string `''`; `validity` later holds a number) are modelled by
  `ConfigValue`, a string/number sum.  Timestamps are `Int` (the claims never
  need fractional seconds).
* The on-disk YAML file is modelled as `Option ConfigData`: `MetaConfig.write`
  dumps the whole in-memory record, so an existing file holds exactly the five
  fields.
* A Python exception that leaves the object in a partially mutated state is
  modelled by `Except (Err × State) State`: the error carries the state at the
  moment of the raise.
* A Python error path the source never guards against (`KeyError`,
  `TypeError`, `IndexError`) is modelled by `Option`: `none` means the
  exception propagates before the operation produces its effects.
-/

/-- A dynamically typed configuration value: Python strings and numbers. -/
inductive ConfigValue
  | str (s : String)
  | num (n : Int)
deriving DecidableEq, Repr

/-- Python truthiness test used by `if not Config.token`: the empty string and
zero are falsy. -/
def ConfigValue.falsy : ConfigValue → Bool
  | ConfigValue.str s => s = ""
  | ConfigValue.num n => n = 0

/-- The in-memory record of `MetaConfig.__meta__['data']`: the five annotated
fields of class `Config` (`client`, `secret`, `token`, `refresh`,
`validity`). -/
structure ConfigData where
  client : ConfigValue
  secret : ConfigValue
  token : ConfigValue
  refresh : ConfigValue
  validity : ConfigValue
deriving DecidableEq, Repr

/-- The five recognised configuration keys, in annotation order. -/
def configKeys : List String :=
  ["client", "secret", "token", "refresh", "validity"]

/-- Dictionary lookup `self.__meta__['data'][name]`, with `none` for a key
outside the five recognised fields (`name not in self.__meta__['data']`). -/
def ConfigData.getKey (d : ConfigData) (name : String) : Option ConfigValue :=
  if name = "client" then some d.client
  else if name = "secret" then some d.secret
  else if name = "token" then some d.token
  else if name = "refresh" then some d.refresh
  else if name = "validity" then some d.validity
  else none

/-- Dictionary assignment `self.__meta__['data'][name] = value` for a
recognised key (the caller has already checked membership). -/
def ConfigData.setKey (d : ConfigData) (name : String) (v : ConfigValue) :
    ConfigData :=
  if name = "client" then { d with client := v }
  else if name = "secret" then { d with secret := v }
  else if name = "token" then { d with token := v }
  else if name = "refresh" then { d with refresh := v }
  else if name = "validity" then { d with validity := v }
  else d

/-- `dict(zip(fields, [''] * len(fields)))`: every field starts as `''`. -/
def ConfigData.initial : ConfigData :=
  ⟨ConfigValue.str "", ConfigValue.str "", ConfigValue.str "",
   ConfigValue.str "", ConfigValue.str ""⟩

/-- The process-wide store state: the in-memory data dict, the
`__meta__['loaded']` flag, and the on-disk file (`none` when the file does
not exist). -/
structure ConfigState where
  data : ConfigData
  loaded : Bool
  disk : Option ConfigData
deriving DecidableEq, Repr

/-- `ConfigError` from `spotify/config.py`: carries the offending parameter
name. -/
structure ConfigError where
  param : String
deriving DecidableEq, Repr

/-- `MetaConfig.load`: if the file exists, merge its contents into the data
dict (the file, written by `MetaConfig.write`, holds all five fields, so the
merge replaces the record), then set the loaded flag. -/
def MetaConfig.load (st : ConfigState) : ConfigState :=
  match st.disk with
  | some d => { st with data := d, loaded := true }
  | none => { st with loaded := true }

/-- `MetaConfig.write`: dump the whole in-memory record to the file. -/
def MetaConfig.write (st : ConfigState) : ConfigState :=
  { st with disk := some st.data }

/-- `MetaConfig.__getattr__`: reject unknown keys with `ConfigError`, lazily
load the file on first access, and return the current value.  The returned
state records the possible lazy load. -/
def MetaConfig.getattr (st : ConfigState) (name : String) :
    Except ConfigError (ConfigValue × ConfigState) :=
  match st.data.getKey name with
  | none => Except.error ⟨name⟩
  | some _ =>
    let st' := if st.loaded then st else MetaConfig.load st
    match st'.data.getKey name with
    | some v => Except.ok (v, st')
    | none => Except.error ⟨name⟩

/-- The `for name, value in kwargs.items()` loop of `MetaConfig.update`: each
iteration validates the key, lazily loads once, then assigns into the
in-memory dict.  An unrecognised key raises `ConfigError` on the spot; the
error carries the state at the raise, with the earlier assignments of the
batch already applied. -/
def MetaConfig.updateLoop :
    ConfigState → List (String × ConfigValue) →
    Except (ConfigError × ConfigState) ConfigState
  | st, [] => Except.ok st
  | st, (name, value) :: rest =>
    if (st.data.getKey name).isNone then Except.error (⟨name⟩, st)
    else
      let st₁ := if st.loaded then st else MetaConfig.load st
      MetaConfig.updateLoop { st₁ with data := st₁.data.setKey name value } rest

/-- `MetaConfig.update(**kwargs)`: run the validation/assignment loop, then
persist the whole record with `write`.  `write` runs only when no key was
rejected. -/
def MetaConfig.update (st : ConfigState)
    (kwargs : List (String × ConfigValue)) :
    Except (ConfigError × ConfigState) ConfigState :=
  match MetaConfig.updateLoop st kwargs with
  | Except.ok st' => Except.ok (MetaConfig.write st')
  | Except.error e => Except.error e

/-- `MetaConfig.__setattr__`: `self.update(**{name: value})`. -/
def MetaConfig.set (st : ConfigState) (name : String) (v : ConfigValue) :
    Except (ConfigError × ConfigState) ConfigState :=
  MetaConfig.update st [(name, v)]

/-- `SpotifyError` as raised by `Client.response`: the Python message string
`f"Failed with code {status}: {reason} ({data})"` carries the HTTP status,
the reason phrase and the response body. -/
structure SpotifyError where
  status : Nat
  reason : String
  body : String
deriving DecidableEq, Repr

/-- A parsed token-endpoint HTTP response, as consumed by
`Client.authenticate` and `Client.refresh`: the transport status line plus
the JSON fields `access_token`, `expires_in` and the optional
`refresh_token`. -/
structure TokenResponse where
  status : Nat
  reason : String
  body : String
  access_token : String
  expires_in : Int
  refresh_token : Option String
deriving DecidableEq, Repr

/-- The two effectful paths `Client.token` can dispatch to. -/
inductive TokenCall
  | authorize
  | refresh
deriving DecidableEq, Repr

/-- The `Client.token` property:

```python
if not Config.token:
    self.authorize()
elif Config.validity < time():
    self.refresh()
return Config.token
```

The effects of the two paths are abstracted as store transformers
`doAuthorize`/`doRefresh`; the result records the final store, the list of
paths invoked, and the returned `Config.token`.  The store is read as already
loaded: `Client.__init__` reads `Config.client` and `Config.secret`, which
forces the lazy load before `token` can run.  `none` models the Python
`TypeError` raised by `Config.validity < time()` when `validity` still holds
its initial string value (unreachable after any authorize/refresh, whose
updates always store a number). -/
def Client.token (st : ConfigState) (now : Int)
    (doAuthorize doRefresh : ConfigState → ConfigState) :
    Option (ConfigState × List TokenCall × ConfigValue) :=
  if st.data.token.falsy then
    let st' := doAuthorize st
    some (st', [TokenCall.authorize], st'.data.token)
  else
    match st.data.validity with
    | ConfigValue.num v =>
      if v < now then
        let st' := doRefresh st
        some (st', [TokenCall.refresh], st'.data.token)
      else some (st, [], st.data.token)
    | ConfigValue.str _ => none

/-- `Client.authenticate(code)` after the POST to `/api/token` returned
`resp`: `Client.response` raises `SpotifyError` on any status other than 200
(the store untouched at the raise), otherwise
`Config.update(token=data["access_token"], validity=time() + data["expires_in"],
refresh=data["refresh_token"])` runs.  The outer `none` models the Python
`KeyError` when the success body lacks `refresh_token`, and the unreachable
rejection of the three recognised keys by `Config.update`. -/
def Client.authenticate (st : ConfigState) (now : Int) (resp : TokenResponse) :
    Option (Except (SpotifyError × ConfigState) ConfigState) :=
  if resp.status ≠ 200 then
    some (Except.error (⟨resp.status, resp.reason, resp.body⟩, st))
  else
    match resp.refresh_token with
    | none => none
    | some r =>
      match MetaConfig.update st
          [("token", ConfigValue.str resp.access_token),
           ("validity", ConfigValue.num (now + resp.expires_in)),
           ("refresh", ConfigValue.str r)] with
      | Except.ok st' => some (Except.ok st')
      | Except.error _ => none

/-- `Client.refresh()` after the POST to `/api/token` returned `resp`: on any
status other than 200 `Client.response` raises `SpotifyError`; on 200 the
store is updated with
`Config.update(token=data["access_token"], validity=time() + data["expires_in"])`
— the response's `refresh_token` field, if any, is never read.  The outer
`none` marks the unreachable rejection of the two recognised keys. -/
def Client.refresh (st : ConfigState) (now : Int) (resp : TokenResponse) :
    Option (Except (SpotifyError × ConfigState) ConfigState) :=
  if resp.status ≠ 200 then
    some (Except.error (⟨resp.status, resp.reason, resp.body⟩, st))
  else
    match MetaConfig.update st
        [("token", ConfigValue.str resp.access_token),
         ("validity", ConfigValue.num (now + resp.expires_in))] with
    | Except.ok st' => some (Except.ok st')
    | Except.error _ => none

/-- The immutable `SpotifyTrack` dataclass. -/
structure SpotifyTrack where
  artist : String
  title : String
  album : String
  uri : String
deriving DecidableEq, Repr

/-- One element of `data["tracks"]["items"]` in a search response, restricted
to the fields `Client.search` reads: `id`, `name`, the names of the `artists`
array's entries, and `album.name`. -/
structure TrackItem where
  id : String
  name : String
  artistNames : List String
  albumName : String
deriving DecidableEq, Repr

/-- The per-item constructor inside the list comprehension of
`Client.search`: `SpotifyTrack(uri=track["id"], title=track["name"],
artist=track["artists"][0]["name"], album=track["album"]["name"])`.
`none` models the Python `IndexError` when the `artists` array is empty. -/
def Client.trackOfItem (item : TrackItem) : Option SpotifyTrack :=
  match item.artistNames.head? with
  | some a => some ⟨a, item.name, item.albumName, item.id⟩
  | none => none

/-- The value `Client.search` returns: a single track when `limit == 1`, the
whole list otherwise, or Python `None` when `items` is empty. -/
inductive SearchResult
  | one (t : SpotifyTrack)
  | many (ts : List SpotifyTrack)
  | none
deriving DecidableEq, Repr

/-- The result mapping at the end of `Client.search`, applied to the parsed
`items` list of a 200 response:

```python
if items:
    tracks = [SpotifyTrack(...) for track in items]
    return tracks[0] if limit == 1 else tracks
return None
```

The outer `none` models the `IndexError` escaping the comprehension when some
item has an empty `artists` array. -/
def Client.searchMap (items : List TrackItem) (limit : Int) :
    Option SearchResult :=
  if items.isEmpty then some SearchResult.none
  else
    match items.mapM Client.trackOfItem with
    | Option.none => Option.none
    | some tracks =>
      if limit = 1 then tracks.head?.map SearchResult.one
      else some (SearchResult.many tracks)

/-- Python's `str.split(sep)` for the one-character separator `'='`, over the
character list of the string: `"".split("=") == [""]`, and a trailing
separator yields a trailing empty field. -/
def splitOnEq : List Char → List (List Char)
  | [] => [[]]
  | c :: rest =>
    let r := splitOnEq rest
    if c = '=' then [] :: r
    else
      match r with
      | [] => [[c]]
      | f :: fs => (c :: f) :: fs

/-- The observable effects of one `HTTPRequestHandler.do_GET` call when it
completes: the captured class attribute `spotify_code`, and the facts that a
200 response was sent and a shutdown thread started. -/
structure HandlerEffects where
  spotify_code : List Char
  sent200 : Bool
  shutdownStarted : Bool
deriving DecidableEq, Repr

/-- `HTTPRequestHandler.do_GET`: `self.path.split("=")[1]` captures the code,
then the 200 response is sent and the shutdown thread started.  `none` models
the Python `IndexError` when the split has no second field: it propagates
before the assignment, the response and the shutdown. -/
def HTTPRequestHandler.do_GET (path : List Char) : Option HandlerEffects :=
  match (splitOnEq path)[1]? with
  | some code => some ⟨code, true, true⟩
  | none => none

/-- Modelled from the spec (interface sentence for C3, for comparison with
the source's `do_GET`): "the authorization code is everything after the last
`=` in the request path" — the last field of the split, provided the path
contains an `=` at all. -/
def specCodeAfterLastEq (path : List Char) : Option (List Char) :=
  if 2 ≤ (splitOnEq path).length then (splitOnEq path).getLast? else none

/-! ### Helper lemmas about the credential store -/

theorem ConfigData.getKey_eq_none_iff (d : ConfigData) (name : String) :
    d.getKey name = none ↔ name ∉ configKeys := by
  unfold ConfigData.getKey
  simp only [configKeys, List.mem_cons, List.not_mem_nil, or_false]
  split_ifs with h1 h2 h3 h4 h5 <;> simp_all

@[simp]
theorem ConfigData.getKey_client (d : ConfigData) :
    d.getKey "client" = some d.client := rfl

@[simp]
theorem ConfigData.getKey_secret (d : ConfigData) :
    d.getKey "secret" = some d.secret := rfl

@[simp]
theorem ConfigData.getKey_token (d : ConfigData) :
    d.getKey "token" = some d.token := rfl

@[simp]
theorem ConfigData.getKey_refresh (d : ConfigData) :
    d.getKey "refresh" = some d.refresh := rfl

@[simp]
theorem ConfigData.getKey_validity (d : ConfigData) :
    d.getKey "validity" = some d.validity := rfl

@[simp]
theorem ConfigData.setKey_token (d : ConfigData) (v : ConfigValue) :
    d.setKey "token" v = { d with token := v } := rfl

@[simp]
theorem ConfigData.setKey_refresh (d : ConfigData) (v : ConfigValue) :
    d.setKey "refresh" v = { d with refresh := v } := rfl

@[simp]
theorem ConfigData.setKey_validity (d : ConfigData) (v : ConfigValue) :
    d.setKey "validity" v = { d with validity := v } := rfl

@[simp]
theorem MetaConfig.load_disk (st : ConfigState) :
    (MetaConfig.load st).disk = st.disk := by
  unfold MetaConfig.load
  cases st.disk <;> rfl

@[simp]
theorem MetaConfig.load_loaded (st : ConfigState) :
    (MetaConfig.load st).loaded = true := by
  unfold MetaConfig.load
  cases st.disk <;> rfl

/-- The validation/assignment loop of `update` never touches the file: only
`write`, which runs after the loop, does. -/
theorem MetaConfig.updateLoop_error_disk (kwargs : List (String × ConfigValue)) :
    ∀ st e st', MetaConfig.updateLoop st kwargs = Except.error (e, st') →
      st'.disk = st.disk := by
  induction kwargs with
  | nil => intro st e st' h; simp [MetaConfig.updateLoop] at h
  | cons kv rest ih =>
    intro st e st' h
    rw [MetaConfig.updateLoop] at h
    by_cases hk : (st.data.getKey kv.1).isNone
    · simp only [hk, if_true] at h
      cases h
      rfl
    · simp only [hk, if_false] at h
      have := ih _ _ _ h
      by_cases hl : st.loaded <;> simp_all

/-- A batch containing an unrecognised key makes the loop raise
`ConfigError` on such a key. -/
theorem MetaConfig.updateLoop_error_of_bad (kwargs : List (String × ConfigValue)) :
    ∀ st, (∃ kv ∈ kwargs, kv.1 ∉ configKeys) →
      ∃ e st', MetaConfig.updateLoop st kwargs = Except.error (e, st') ∧
        e.param ∉ configKeys := by
  induction kwargs with
  | nil => intro st h; simp at h
  | cons kv rest ih =>
    intro st h
    rw [MetaConfig.updateLoop]
    by_cases hk : (st.data.getKey kv.1).isNone
    · refine ⟨⟨kv.1⟩, st, by simp [hk], ?_⟩
      rw [← ConfigData.getKey_eq_none_iff st.data]
      exact Option.isNone_iff_eq_none.mp hk
    · simp only [hk, if_false]
      rcases h with ⟨kv', hmem, hbad⟩
      rcases List.mem_cons.mp hmem with rfl | hmem'
      · exact absurd hk (by simp [Option.isNone_iff_eq_none,
          (ConfigData.getKey_eq_none_iff st.data kv'.1).mpr hbad])
      · exact ih _ ⟨kv', hmem', hbad⟩

/-- A batch of recognised keys passes the loop's validation. -/
theorem MetaConfig.updateLoop_ok_of_recognized (kwargs : List (String × ConfigValue)) :
    ∀ st, (∀ kv ∈ kwargs, kv.1 ∈ configKeys) →
      ∃ st', MetaConfig.updateLoop st kwargs = Except.ok st' := by
  induction kwargs with
  | nil => intro st _; exact ⟨st, rfl⟩
  | cons kv rest ih =>
    intro st h
    rw [MetaConfig.updateLoop]
    have hk : (st.data.getKey kv.1).isNone = false := by
      cases hopt : st.data.getKey kv.1 with
      | none =>
        exact absurd ((ConfigData.getKey_eq_none_iff st.data kv.1).mp hopt)
          (by simp [h kv (List.mem_cons_self kv rest)])
      | some v => rfl
    simp only [hk, if_false]
    exact ih _ (fun kv' hmem => h kv' (List.mem_cons_of_mem kv hmem))

/-- Setting a recognised key leaves the store loaded with the key's value
readable, combining the one-key `update` of `__setattr__` with a following
`__getattr__`. -/
theorem MetaConfig.set_get_aux (st : ConfigState) (name : String) (v : ConfigValue)
    (h1 : (st.data.getKey name).isNone = false)
    (h2 : ∀ d : ConfigData, (d.setKey name v).getKey name = some v) :
    ∃ st', MetaConfig.set st name v = Except.ok st' ∧
      MetaConfig.getattr st' name = Except.ok (v, st') := by
  have hL : (if st.loaded then st else MetaConfig.load st).loaded = true := by
    by_cases hl : st.loaded <;> simp [hl]
  refine ⟨MetaConfig.write
      { (if st.loaded then st else MetaConfig.load st) with
        data := (if st.loaded then st else MetaConfig.load st).data.setKey name v },
    ?_, ?_⟩
  · unfold MetaConfig.set MetaConfig.update
    rw [MetaConfig.updateLoop]
    simp only [h1, Bool.false_eq_true, if_false]
    rw [MetaConfig.updateLoop]
  · unfold MetaConfig.getattr
    simp [MetaConfig.write, h2, hL]

/-! ### C2: update with an unrecognised key -/

/-- A concrete prior store for the C2 counterexample: loaded, with
`token = "old"` both in memory and on disk. -/
def c2Prior : ConfigState :=
  ⟨⟨ConfigValue.str "id", ConfigValue.str "sec", ConfigValue.str "old",
    ConfigValue.str "ref", ConfigValue.num 100⟩, true,
   some ⟨ConfigValue.str "id", ConfigValue.str "sec", ConfigValue.str "old",
    ConfigValue.str "ref", ConfigValue.num 100⟩⟩

/-- The in-memory record at the moment `update` raises on `"bogus"`: the
recognised key `token`, listed first in the batch, has already been
assigned. -/
def c2ErrState : ConfigState :=
  ⟨⟨ConfigValue.str "id", ConfigValue.str "sec", ConfigValue.str "new",
    ConfigValue.str "ref", ConfigValue.num 100⟩, true,
   some ⟨ConfigValue.str "id", ConfigValue.str "sec", ConfigValue.str "old",
    ConfigValue.str "ref", ConfigValue.num 100⟩⟩

/-- C2 counterexample: `update(token="new", bogus="x")` raises `ConfigError`
on `"bogus"`, but the in-memory record at the raise already holds
`token = "new"` — the batch is not rejected atomically with respect to the
in-memory state (only the on-disk state is untouched). -/
theorem c2_counterexample :
    MetaConfig.update c2Prior
        [("token", ConfigValue.str "new"), ("bogus", ConfigValue.str "x")]
      = Except.error (⟨"bogus"⟩, c2ErrState) ∧
    c2ErrState.data ≠ c2Prior.data ∧ c2ErrState.disk = c2Prior.disk :=
  ⟨rfl, by decide, rfl⟩

/-- C2 (amended): an update batch containing an unrecognised key raises
`ConfigError` (`UnknownParameter`) on an unrecognised key and performs no
write: the persisted on-disk state is exactly as before the call, for every
prior store state.  The in-memory record, however, retains the assignments
of recognised keys processed before the raise. -/
theorem c2_unknown_key_rejected (st : ConfigState)
    (kwargs : List (String × ConfigValue))
    (h : ∃ kv ∈ kwargs, kv.1 ∉ configKeys) :
    ∃ e st', MetaConfig.update st kwargs = Except.error (e, st') ∧
      e.param ∉ configKeys ∧ st'.disk = st.disk := by
  obtain ⟨e, st', hloop, hbad⟩ := MetaConfig.updateLoop_error_of_bad kwargs st h
  exact ⟨e, st', by simp [MetaConfig.update, hloop], hbad,
    MetaConfig.updateLoop_error_disk kwargs st e st' hloop⟩

/-- Witness for C2 at a concrete store and batch. -/
theorem c2_witness :
    ∃ e st', MetaConfig.update ⟨ConfigData.initial, true, none⟩
        [("bogus", ConfigValue.str "x")] = Except.error (e, st') ∧
      e.param ∉ configKeys ∧
      st'.disk = (⟨ConfigData.initial, true, none⟩ : ConfigState).disk :=
  c2_unknown_key_rejected _ _ ⟨("bogus", ConfigValue.str "x"), by decide, by decide⟩

/-! ### C7: write-then-read consistency and disk/memory agreement -/

/-- C7: for set/get on recognised keys, a `get` of a key right after a `set`
of that key returns the just-set value, and after every successful `update`
the on-disk representation is exactly the in-memory record. -/
theorem c7_set_get_and_persist :
    (∀ st name v, name ∈ configKeys →
      ∃ st', MetaConfig.set st name v = Except.ok st' ∧
        MetaConfig.getattr st' name = Except.ok (v, st')) ∧
    (∀ st kwargs, (∀ kv ∈ kwargs, kv.1 ∈ configKeys) →
      ∃ st', MetaConfig.update st kwargs = Except.ok st' ∧
        st'.disk = some st'.data) := by
  constructor
  · intro st name v hname
    simp only [configKeys, List.mem_cons, List.not_mem_nil, or_false] at hname
    have h1 : (st.data.getKey name).isNone = false := by
      rcases hname with rfl | rfl | rfl | rfl | rfl <;> rfl
    have h2 : ∀ d : ConfigData, (d.setKey name v).getKey name = some v := by
      rcases hname with rfl | rfl | rfl | rfl | rfl <;> exact fun d => rfl
    exact MetaConfig.set_get_aux st name v h1 h2
  · intro st kwargs h
    obtain ⟨st', hok⟩ := MetaConfig.updateLoop_ok_of_recognized kwargs st h
    exact ⟨MetaConfig.write st', by simp [MetaConfig.update, hok], rfl⟩

/-- Witness for C7: a concrete set-then-get on `token` and a concrete
`update` of `client` on the initial store. -/
theorem c7_witness :
    (∃ st', MetaConfig.set ⟨ConfigData.initial, false, none⟩ "token"
        (ConfigValue.str "tok") = Except.ok st' ∧
      MetaConfig.getattr st' "token" = Except.ok (ConfigValue.str "tok", st')) ∧
    (∃ st', MetaConfig.update ⟨ConfigData.initial, false, none⟩
        [("client", ConfigValue.str "c")] = Except.ok st' ∧
      st'.disk = some st'.data) :=
  ⟨c7_set_get_and_persist.1 _ "token" _ (by decide),
   c7_set_get_and_persist.2 _ _ (by decide)⟩

/-! ### C1 and C5: the `Client.token` dispatch -/

/-- A loaded store holding a non-empty access token that expires exactly at
time 50. -/
def stExpiresAt50 : ConfigState :=
  ⟨⟨ConfigValue.str "id", ConfigValue.str "sec", ConfigValue.str "tok",
    ConfigValue.str "ref", ConfigValue.num 50⟩, true, none⟩

/-- C1 counterexample: with the stored token present and its recorded expiry
exactly at the current time (`validity = 50 = now`, i.e. "at" the current
time), `Client.token` takes neither path — `Config.validity < time()` is
strict — and returns the stored token, instead of triggering the refresh
path exactly once as the claim requires. -/
theorem c1_counterexample :
    Client.token stExpiresAt50 50 id id
      = some (stExpiresAt50, [], ConfigValue.str "tok") ∧
    ([] : List TokenCall) ≠ [TokenCall.refresh] :=
  ⟨rfl, by decide⟩

/-- C1 (amended): for every store state holding a non-empty access token
whose recorded expiry is strictly before the current time, `Client.token`
invokes the refresh path exactly once, never the authorize path (no browser
is opened), and returns the token the refreshed store holds. -/
theorem c1_expired_token_refreshes (st : ConfigState) (now v : Int) (s : String)
    (a r : ConfigState → ConfigState)
    (htok : st.data.token = ConfigValue.str s) (hs : s ≠ "")
    (hv : st.data.validity = ConfigValue.num v) (hlt : v < now) :
    Client.token st now a r
      = some (r st, [TokenCall.refresh], (r st).data.token) := by
  unfold Client.token
  rw [htok, hv]
  simp [ConfigValue.falsy, hs, hlt]

/-- Witness for C1 at a concrete expired store (`validity = 40 < 50`). -/
theorem c1_witness :
    Client.token ⟨⟨ConfigValue.str "id", ConfigValue.str "sec",
        ConfigValue.str "tok", ConfigValue.str "ref", ConfigValue.num 40⟩,
        true, none⟩ 50 id id
      = some (id (⟨⟨ConfigValue.str "id", ConfigValue.str "sec",
          ConfigValue.str "tok", ConfigValue.str "ref", ConfigValue.num 40⟩,
          true, none⟩ : ConfigState), [TokenCall.refresh],
        (id (⟨⟨ConfigValue.str "id", ConfigValue.str "sec",
          ConfigValue.str "tok", ConfigValue.str "ref", ConfigValue.num 40⟩,
          true, none⟩ : ConfigState)).data.token) :=
  c1_expired_token_refreshes _ 50 40 "tok" id id rfl (by decide) rfl (by decide)

/-- C5: with no access token stored (`token` still the falsy initial `''`),
`Client.token` invokes the authorize path exactly once and never the refresh
path; with a token present and expiry strictly in the future, it returns the
stored token with no path invoked at all (so no network call) and the store
untouched. -/
theorem c5_token_dispatch :
    (∀ st now (a r : ConfigState → ConfigState),
      st.data.token = ConfigValue.str "" →
      Client.token st now a r
        = some (a st, [TokenCall.authorize], (a st).data.token)) ∧
    (∀ st now v s (a r : ConfigState → ConfigState),
      st.data.token = ConfigValue.str s → s ≠ "" →
      st.data.validity = ConfigValue.num v → now < v →
      Client.token st now a r = some (st, [], ConfigValue.str s)) := by
  constructor
  · intro st now a r htok
    unfold Client.token
    rw [htok]
    simp [ConfigValue.falsy]
  · intro st now v s a r htok hs hv hgt
    unfold Client.token
    rw [htok, hv]
    have hnlt : ¬ v < now := by omega
    simp [ConfigValue.falsy, hs, hnlt]

/-- Witness for C5: the empty-token store dispatches to authorize, and a
store valid until 100 at time 50 returns its token untouched. -/
theorem c5_witness :
    Client.token ⟨ConfigData.initial, true, none⟩ 50 id id
      = some (id (⟨ConfigData.initial, true, none⟩ : ConfigState),
        [TokenCall.authorize],
        (id (⟨ConfigData.initial, true, none⟩ : ConfigState)).data.token) ∧
    Client.token ⟨⟨ConfigValue.str "id", ConfigValue.str "sec",
        ConfigValue.str "tok", ConfigValue.str "ref", ConfigValue.num 100⟩,
        true, none⟩ 50 id id
      = some (⟨⟨ConfigValue.str "id", ConfigValue.str "sec",
          ConfigValue.str "tok", ConfigValue.str "ref", ConfigValue.num 100⟩,
          true, none⟩, [], ConfigValue.str "tok") :=
  ⟨c5_token_dispatch.1 _ 50 id id rfl,
   c5_token_dispatch.2 _ 50 100 "tok" id id rfl (by decide) rfl (by decide)⟩

/-! ### C4: what `Client.refresh` persists -/

/-- A loaded prior store for the C4 counterexample, holding refresh token
`"oldref"` in memory and on disk. -/
def c4Prior : ConfigState :=
  ⟨⟨ConfigValue.str "id", ConfigValue.str "sec", ConfigValue.str "old",
    ConfigValue.str "oldref", ConfigValue.num 100⟩, true,
   some ⟨ConfigValue.str "id", ConfigValue.str "sec", ConfigValue.str "old",
    ConfigValue.str "oldref", ConfigValue.num 100⟩⟩

/-- A successful token response that does supply a new refresh token. -/
def c4Resp : TokenResponse :=
  ⟨200, "OK", "", "newtok", 3600, some "newref"⟩

/-- The record `Client.refresh` actually persists for `c4Prior`/`c4Resp`:
the response's new refresh token is ignored. -/
def c4After : ConfigData :=
  ⟨ConfigValue.str "id", ConfigValue.str "sec", ConfigValue.str "newtok",
   ConfigValue.str "oldref", ConfigValue.num 3650⟩

/-- C4 counterexample: the token endpoint's response supplies a new refresh
token (`"newref"`), yet after a successful `Client.refresh` the store still
holds `"oldref"` — the code updates only `token` and `validity` and never
reads the response's `refresh_token`, so the claim's "replaces the stored
refresh token when the response does supply a new one" fails. -/
theorem c4_counterexample :
    Client.refresh c4Prior 50 c4Resp
      = some (Except.ok ⟨c4After, true, some c4After⟩) ∧
    c4Resp.refresh_token = some "newref" ∧
    c4After.refresh = ConfigValue.str "oldref" ∧
    ConfigValue.str "oldref" ≠ ConfigValue.str "newref" :=
  ⟨rfl, rfl, rfl, by decide⟩

/-- C4 (amended): every successful (status 200) `Client.refresh` on a loaded
store persists the new `access_token` and `expiry_time = now + expires_in`,
and leaves the stored refresh token unchanged in every case — also when the
response supplies a new one; `client_id` and `client_secret` are never
rewritten, and the whole record is flushed to disk. -/
theorem c4_refresh_persists (st : ConfigState) (now : Int) (resp : TokenResponse)
    (hl : st.loaded = true) (hs : resp.status = 200) :
    ∃ st', Client.refresh st now resp = some (Except.ok st') ∧
      st'.data.token = ConfigValue.str resp.access_token ∧
      st'.data.validity = ConfigValue.num (now + resp.expires_in) ∧
      st'.data.refresh = st.data.refresh ∧
      st'.data.client = st.data.client ∧
      st'.data.secret = st.data.secret ∧
      st'.disk = some st'.data := by
  obtain ⟨d, l, k⟩ := st
  obtain ⟨status, reason, body, atok, ei, rt⟩ := resp
  replace hl : l = true := hl
  replace hs : status = 200 := hs
  subst hl
  subst hs
  exact ⟨_, rfl, rfl, rfl, rfl, rfl, rfl, rfl⟩

/-- Witness for C4 at a concrete loaded store and a concrete 200 response. -/
theorem c4_witness :
    ∃ st', Client.refresh ⟨ConfigData.initial, true, none⟩ 50
        ⟨200, "OK", "", "tk", 60, none⟩ = some (Except.ok st') ∧
      st'.data.token = ConfigValue.str (TokenResponse.access_token
        ⟨200, "OK", "", "tk", 60, none⟩) ∧
      st'.data.validity = ConfigValue.num (50 + TokenResponse.expires_in
        ⟨200, "OK", "", "tk", 60, none⟩) ∧
      st'.data.refresh = (⟨ConfigData.initial, true, none⟩ : ConfigState).data.refresh ∧
      st'.data.client = (⟨ConfigData.initial, true, none⟩ : ConfigState).data.client ∧
      st'.data.secret = (⟨ConfigData.initial, true, none⟩ : ConfigState).data.secret ∧
      st'.disk = some st'.data :=
  c4_refresh_persists _ 50 _ rfl rfl

/-! ### C6: what `Client.authenticate` persists and raises -/

/-- C6: a 200 response whose body carries a refresh token makes
`Client.authenticate` persist `access_token`, `refresh_token` and
`expiry_time = now + expires_in` into the store and flush it to disk; any
other status raises `SpotifyError` carrying the status, reason and body,
with the store exactly as it was. -/
theorem c6_authenticate_spec (st : ConfigState) (now : Int)
    (resp : TokenResponse) (rt : String) (hl : st.loaded = true) :
    (resp.status = 200 → resp.refresh_token = some rt →
      ∃ st', Client.authenticate st now resp = some (Except.ok st') ∧
        st'.data.token = ConfigValue.str resp.access_token ∧
        st'.data.refresh = ConfigValue.str rt ∧
        st'.data.validity = ConfigValue.num (now + resp.expires_in) ∧
        st'.disk = some st'.data) ∧
    (resp.status ≠ 200 →
      Client.authenticate st now resp
        = some (Except.error (⟨resp.status, resp.reason, resp.body⟩, st))) := by
  constructor
  · intro hs hrt
    obtain ⟨d, l, k⟩ := st
    obtain ⟨status, reason, body, atok, ei, rto⟩ := resp
    replace hl : l = true := hl
    replace hs : status = 200 := hs
    replace hrt : rto = some rt := hrt
    subst hl
    subst hs
    subst hrt
    exact ⟨_, rfl, rfl, rfl, rfl, rfl⟩
  · intro hs
    unfold Client.authenticate
    simp [hs]

/-- Witness for C6: a concrete 200 exchange persists the three fields, and a
concrete 403 response raises with the store untouched. -/
theorem c6_witness :
    (∃ st', Client.authenticate ⟨ConfigData.initial, true, none⟩ 50
        ⟨200, "OK", "", "tk", 60, some "nr"⟩ = some (Except.ok st') ∧
      st'.data.token = ConfigValue.str (TokenResponse.access_token
        ⟨200, "OK", "", "tk", 60, some "nr"⟩) ∧
      st'.data.refresh = ConfigValue.str "nr" ∧
      st'.data.validity = ConfigValue.num (50 + TokenResponse.expires_in
        ⟨200, "OK", "", "tk", 60, some "nr"⟩) ∧
      st'.disk = some st'.data) ∧
    Client.authenticate ⟨ConfigData.initial, true, none⟩ 50
        ⟨403, "Forbidden", "denied", "", 0, none⟩
      = some (Except.error (⟨403, "Forbidden", "denied"⟩,
          ⟨ConfigData.initial, true, none⟩)) :=
  ⟨(c6_authenticate_spec ⟨ConfigData.initial, true, none⟩ 50
      ⟨200, "OK", "", "tk", 60, some "nr"⟩ "nr" rfl).1 rfl rfl,
   (c6_authenticate_spec ⟨ConfigData.initial, true, none⟩ 50
      ⟨403, "Forbidden", "denied", "", 0, none⟩ "nr" rfl).2 (by decide)⟩

/-! ### Lemmas about `splitOnEq` -/

theorem splitOnEq_ne_nil (l : List Char) : splitOnEq l ≠ [] := by
  cases l with
  | nil => simp [splitOnEq]
  | cons c rest =>
    rw [splitOnEq]
    by_cases h : c = '='
    · simp [h]
    · cases hr : splitOnEq rest <;> simp [h, hr]

/-- A string without the separator splits into the single field it is. -/
theorem splitOnEq_no_eq (l : List Char) (h : '=' ∉ l) : splitOnEq l = [l] := by
  induction l with
  | nil => rfl
  | cons c rest ih =>
    have hc : ¬ c = '=' := fun hcc => h (by simp [hcc])
    have hr := ih (fun hm => h (List.mem_cons_of_mem c hm))
    rw [splitOnEq]
    simp [hc, hr]

/-- Splitting at the first separator: the text before it becomes the first
field, the rest splits on its own. -/
theorem splitOnEq_append (pre suffix : List Char) (h : '=' ∉ pre) :
    splitOnEq (pre ++ '=' :: suffix) = pre :: splitOnEq suffix := by
  induction pre with
  | nil => simp [splitOnEq]
  | cons c pre' ih =>
    have hc : ¬ c = '=' := fun hcc => h (by simp [hcc])
    have hr := ih (fun hm => h (List.mem_cons_of_mem c hm))
    rw [List.cons_append, splitOnEq]
    simp [hc, hr]

/-- A string containing the separator splits into at least two fields. -/
theorem splitOnEq_length_of_mem (l : List Char) (h : '=' ∈ l) :
    2 ≤ (splitOnEq l).length := by
  induction l with
  | nil => simp at h
  | cons c rest ih =>
    rw [splitOnEq]
    by_cases hc : c = '='
    · cases hr : splitOnEq rest with
      | nil => exact absurd hr (splitOnEq_ne_nil rest)
      | cons f fs => simp [hc, hr]
    · rcases List.mem_cons.mp h with heq | hm
      · exact absurd heq.symm hc
      · have h2 := ih hm
        cases hr : splitOnEq rest with
        | nil => exact absurd hr (splitOnEq_ne_nil rest)
        | cons f fs =>
          rw [hr] at h2
          simp only [List.length_cons] at h2
          simp [hc, hr]
          omega

/-! ### C3: which `=` the captured code follows -/

/-- C3 counterexample: for the request path `/?code=abc&state=xyz`, which
contains two `=` characters, `do_GET` captures `abc&state` — the text after
the first `=` (up to the next one) — while the substring after the last `=`
is `xyz`. -/
theorem c3_counterexample :
    HTTPRequestHandler.do_GET "/?code=abc&state=xyz".toList
      = some ⟨"abc&state".toList, true, true⟩ ∧
    specCodeAfterLastEq "/?code=abc&state=xyz".toList = some "xyz".toList ∧
    "abc&state".toList ≠ "xyz".toList :=
  ⟨rfl, rfl, by decide⟩

/-- C3 (amended): the captured authorization code is the second field of the
request path split on `=` — the text after the first `=`, up to the next `=`
or the end of the path.  This agrees with the spec's "after the last `=`"
reading exactly when the path contains a single `=`. -/
theorem c3_code_after_first_eq (pre mid rest : List Char)
    (hpre : '=' ∉ pre) (hmid : '=' ∉ mid) :
    (HTTPRequestHandler.do_GET (pre ++ '=' :: mid)).map
        HandlerEffects.spotify_code = some mid ∧
    (HTTPRequestHandler.do_GET (pre ++ '=' :: (mid ++ '=' :: rest))).map
        HandlerEffects.spotify_code = some mid ∧
    specCodeAfterLastEq (pre ++ '=' :: mid) = some mid := by
  have h1 : splitOnEq (pre ++ '=' :: mid) = [pre, mid] := by
    rw [splitOnEq_append pre mid hpre, splitOnEq_no_eq mid hmid]
  have h2 : splitOnEq (pre ++ '=' :: (mid ++ '=' :: rest))
      = pre :: mid :: splitOnEq rest := by
    rw [splitOnEq_append pre _ hpre, splitOnEq_append mid rest hmid]
  refine ⟨?_, ?_, ?_⟩
  · simp [HTTPRequestHandler.do_GET, h1]
  · simp [HTTPRequestHandler.do_GET, h2]
  · simp [specCodeAfterLastEq, h1]

/-- Witness for C3 on the path `/?code=abc` and its two-`=` extension. -/
theorem c3_witness :
    (HTTPRequestHandler.do_GET ("/?code".toList ++ '=' :: "abc".toList)).map
        HandlerEffects.spotify_code = some "abc".toList ∧
    (HTTPRequestHandler.do_GET ("/?code".toList ++ '=' ::
        ("abc".toList ++ '=' :: "xyz".toList))).map
        HandlerEffects.spotify_code = some "abc".toList ∧
    specCodeAfterLastEq ("/?code".toList ++ '=' :: "abc".toList)
      = some "abc".toList :=
  c3_code_after_first_eq "/?code".toList "abc".toList "xyz".toList
    (by decide) (by decide)

/-! ### C10: the handler on a path without `=` -/

/-- C10: on every request path containing no `=` — such as a browser's
`/favicon.ico` probe — `do_GET` hits the `IndexError` of
`self.path.split("=")[1]` before capturing a code, sending the 200 response
or starting the shutdown thread; with at least one `=` in the path the
handler completes. -/
theorem c10_handler_requires_eq (path : List Char) :
    ('=' ∉ path → HTTPRequestHandler.do_GET path = Option.none) ∧
    ('=' ∈ path → (HTTPRequestHandler.do_GET path).isSome = true) := by
  constructor
  · intro h
    simp [HTTPRequestHandler.do_GET, splitOnEq_no_eq path h]
  · intro h
    have h2 := splitOnEq_length_of_mem path h
    unfold HTTPRequestHandler.do_GET
    cases hr : (splitOnEq path)[1]? with
    | none =>
      rw [List.getElem?_eq_none_iff] at hr
      omega
    | some c => rfl

/-- Witness for C10: the favicon probe dies with no effects, a real callback
path completes. -/
theorem c10_witness :
    HTTPRequestHandler.do_GET "/favicon.ico".toList = Option.none ∧
    (HTTPRequestHandler.do_GET "/?code=abc".toList).isSome = true :=
  ⟨(c10_handler_requires_eq "/favicon.ico".toList).1 (by decide),
   (c10_handler_requires_eq "/?code=abc".toList).2 (by decide)⟩

/-! ### C9: the search result mapping -/

/-- C9: on a response whose items all map to tracks, `Client.search` returns
Python `None` when `items` is empty; a single track built from `items[0]`
when `limit == 1`; and the ordered list of tracks, in response order, when
`limit != 1`. -/
theorem c9_search_mapping (items : List TrackItem) (tracks : List SpotifyTrack)
    (limit : Int) (h : items.mapM Client.trackOfItem = some tracks) :
    (items = [] → Client.searchMap items limit = some SearchResult.none) ∧
    (∀ i0 rest, items = i0 :: rest → limit = 1 →
      Client.searchMap items limit
        = (Client.trackOfItem i0).map SearchResult.one) ∧
    (items ≠ [] → limit ≠ 1 →
      Client.searchMap items limit = some (SearchResult.many tracks)) := by
  refine ⟨?_, ?_, ?_⟩
  · rintro rfl
    rfl
  · rintro i0 rest rfl rfl
    have h' := h
    simp only [List.mapM_cons, Option.pure_def, Option.bind_eq_bind,
      Option.bind_eq_some] at h'
    obtain ⟨t, ht, ts, hts, htt⟩ := h'
    replace htt : t :: ts = tracks := Option.some.inj htt
    subst htt
    rw [Client.searchMap, h]
    simp [ht]
  · intro hne h1
    have hemp : items.isEmpty = false := by
      cases items with
      | nil => exact absurd rfl hne
      | cons a l => rfl
    rw [Client.searchMap, hemp, h]
    simp [h1]

/-- The single matching item of the spec's search example. -/
def c9Item : TrackItem :=
  ⟨"i1", "One More Time", ["Daft Punk"], "Discovery"⟩

/-- Witness for C9: empty items give `None`; `limit = 1` gives the single
track built from `items[0]`; `limit = 5` gives the ordered list. -/
theorem c9_witness :
    Client.searchMap ([] : List TrackItem) 1 = some SearchResult.none ∧
    Client.searchMap [c9Item] 1 = (Client.trackOfItem c9Item).map SearchResult.one ∧
    Client.searchMap [c9Item] 5
      = some (SearchResult.many [⟨"Daft Punk", "One More Time", "Discovery", "i1"⟩]) :=
  ⟨(c9_search_mapping [] [] 1 rfl).1 rfl,
   (c9_search_mapping [c9Item] [⟨"Daft Punk", "One More Time", "Discovery", "i1"⟩]
      1 rfl).2.1 c9Item [] rfl rfl,
   (c9_search_mapping [c9Item] [⟨"Daft Punk", "One More Time", "Discovery", "i1"⟩]
      5 rfl).2.2 (by decide) (by decide)⟩
